import Mathlib

/-!
Shallow embedding of the context-mod hydration/resolution pipeline and rule
evaluation engine, together with theorems checking the natural-language
specification against the code.

Conventions used throughout:
* JavaScript values flowing through the configuration pipeline are modelled by
  the JSON-like type `JVal`; JS `undefined` is modelled by `Option`.
* Thrown exceptions are modelled with `Except CMErr`.
* `objectHash.sha1` is a canonical (key-order independent) content hash of a
  value; it is modelled as the identity on the canonically-encoded value, so
  hash equality coincides with structural equality of the hashed value.
* Asynchronous collaborators that live outside the analysed sources (remote
  fetches, schema validation by ajv, the kind-specific `process`
  implementations, the filter checks) are passed in as explicit oracle
  arguments.
-/

/-- A JSON-like dynamic value, the universe of configuration data. -/
inductive JVal where
  | null
  | bool (b : Bool)
  | num (n : Int)
  | str (s : String)
  | arr (xs : List JVal)
  | obj (fields : List (String × JVal))
deriving Inhabited

mutual

def JVal.decEq : (a b : JVal) → Decidable (a = b)
  | .null, .null => .isTrue rfl
  | .null, .bool _ => .isFalse (fun h => JVal.noConfusion h)
  | .null, .num _ => .isFalse (fun h => JVal.noConfusion h)
  | .null, .str _ => .isFalse (fun h => JVal.noConfusion h)
  | .null, .arr _ => .isFalse (fun h => JVal.noConfusion h)
  | .null, .obj _ => .isFalse (fun h => JVal.noConfusion h)
  | .bool _, .null => .isFalse (fun h => JVal.noConfusion h)
  | .bool a, .bool b =>
    match Bool.decEq a b with
    | .isTrue h => .isTrue (h ▸ rfl)
    | .isFalse h => .isFalse (fun he => h (JVal.bool.inj he))
  | .bool _, .num _ => .isFalse (fun h => JVal.noConfusion h)
  | .bool _, .str _ => .isFalse (fun h => JVal.noConfusion h)
  | .bool _, .arr _ => .isFalse (fun h => JVal.noConfusion h)
  | .bool _, .obj _ => .isFalse (fun h => JVal.noConfusion h)
  | .num _, .null => .isFalse (fun h => JVal.noConfusion h)
  | .num _, .bool _ => .isFalse (fun h => JVal.noConfusion h)
  | .num a, .num b =>
    match Int.decEq a b with
    | .isTrue h => .isTrue (h ▸ rfl)
    | .isFalse h => .isFalse (fun he => h (JVal.num.inj he))
  | .num _, .str _ => .isFalse (fun h => JVal.noConfusion h)
  | .num _, .arr _ => .isFalse (fun h => JVal.noConfusion h)
  | .num _, .obj _ => .isFalse (fun h => JVal.noConfusion h)
  | .str _, .null => .isFalse (fun h => JVal.noConfusion h)
  | .str _, .bool _ => .isFalse (fun h => JVal.noConfusion h)
  | .str _, .num _ => .isFalse (fun h => JVal.noConfusion h)
  | .str a, .str b =>
    match String.decEq a b with
    | .isTrue h => .isTrue (h ▸ rfl)
    | .isFalse h => .isFalse (fun he => h (JVal.str.inj he))
  | .str _, .arr _ => .isFalse (fun h => JVal.noConfusion h)
  | .str _, .obj _ => .isFalse (fun h => JVal.noConfusion h)
  | .arr _, .null => .isFalse (fun h => JVal.noConfusion h)
  | .arr _, .bool _ => .isFalse (fun h => JVal.noConfusion h)
  | .arr _, .num _ => .isFalse (fun h => JVal.noConfusion h)
  | .arr _, .str _ => .isFalse (fun h => JVal.noConfusion h)
  | .arr xs, .arr ys =>
    match JVal.decEqList xs ys with
    | .isTrue h => .isTrue (h ▸ rfl)
    | .isFalse h => .isFalse (fun he => h (JVal.arr.inj he))
  | .arr _, .obj _ => .isFalse (fun h => JVal.noConfusion h)
  | .obj _, .null => .isFalse (fun h => JVal.noConfusion h)
  | .obj _, .bool _ => .isFalse (fun h => JVal.noConfusion h)
  | .obj _, .num _ => .isFalse (fun h => JVal.noConfusion h)
  | .obj _, .str _ => .isFalse (fun h => JVal.noConfusion h)
  | .obj _, .arr _ => .isFalse (fun h => JVal.noConfusion h)
  | .obj xs, .obj ys =>
    match JVal.decEqFields xs ys with
    | .isTrue h => .isTrue (h ▸ rfl)
    | .isFalse h => .isFalse (fun he => h (JVal.obj.inj he))

def JVal.decEqList : (a b : List JVal) → Decidable (a = b)
  | [], [] => .isTrue rfl
  | [], _ :: _ => .isFalse (fun h => List.noConfusion h)
  | _ :: _, [] => .isFalse (fun h => List.noConfusion h)
  | x :: xs, y :: ys =>
    match JVal.decEq x y with
    | .isFalse h => .isFalse (fun he => h (List.cons.inj he).1)
    | .isTrue h1 =>
      match JVal.decEqList xs ys with
      | .isTrue h2 => .isTrue (h1 ▸ h2 ▸ rfl)
      | .isFalse h2 => .isFalse (fun he => h2 (List.cons.inj he).2)

def JVal.decEqFields : (a b : List (String × JVal)) → Decidable (a = b)
  | [], [] => .isTrue rfl
  | [], _ :: _ => .isFalse (fun h => List.noConfusion h)
  | _ :: _, [] => .isFalse (fun h => List.noConfusion h)
  | (k1, v1) :: xs, (k2, v2) :: ys =>
    match String.decEq k1 k2 with
    | .isFalse h => .isFalse (fun he => h (congrArg Prod.fst (List.cons.inj he).1))
    | .isTrue hk =>
      match JVal.decEq v1 v2 with
      | .isFalse h => .isFalse (fun he => h (congrArg Prod.snd (List.cons.inj he).1))
      | .isTrue hv =>
        match JVal.decEqFields xs ys with
        | .isTrue ht => .isTrue (hk ▸ hv ▸ ht ▸ rfl)
        | .isFalse h => .isFalse (fun he => h (List.cons.inj he).2)

end

instance : DecidableEq JVal := JVal.decEq

mutual

def JVal.reprVal : JVal → String
  | .null => "null"
  | .bool b => toString b
  | .num n => toString n
  | .str s => reprStr s
  | .arr xs => "[" ++ JVal.reprList xs ++ "]"
  | .obj fs => "\x7b" ++ JVal.reprFields fs ++ "\x7d"

def JVal.reprList : List JVal → String
  | [] => ""
  | [x] => JVal.reprVal x
  | x :: xs => JVal.reprVal x ++ ", " ++ JVal.reprList xs

def JVal.reprFields : List (String × JVal) → String
  | [] => ""
  | [(k, v)] => k ++ ": " ++ JVal.reprVal v
  | (k, v) :: xs => k ++ ": " ++ JVal.reprVal v ++ ", " ++ JVal.reprFields xs

end

instance : Repr JVal := ⟨fun v _ => JVal.reprVal v⟩

namespace JVal

/-- Field lookup on an object; `none` models JS `undefined`. -/
def get : JVal → String → Option JVal
  | .obj fields, k => fields.lookup k
  | _, _ => none

/-- Interpret a value as an array, JS destructuring default `= []` applied
when the field is absent. -/
def asArr : Option JVal → List JVal
  | some (.arr xs) => xs
  | _ => []

/-- JS `typeof v === 'string'`. -/
def isStr : JVal → Bool
  | .str _ => true
  | _ => false

/-- Remove the named keys from an object (JS rest destructuring
`{a, b, ...rest}`). Non-objects are left unchanged. -/
def removeKeys : JVal → List String → JVal
  | .obj fields, ks => .obj (fields.filter (fun p => !(ks.contains p.1)))
  | v, _ => v

/-- Set a field on an object, replacing an existing entry of the same key
(JS spread update). -/
def setKey : JVal → String → JVal → JVal
  | .obj fields, k, v => .obj ((fields.filter (fun p => p.1 != k)) ++ [(k, v)])
  | w, _, _ => w

end JVal

/-- JS `toLowerCase`/`toLocaleLowerCase`, character-wise over the string. -/
def toLowerStr (s : String) : String := ⟨s.data.map Char.toLower⟩

/-- Character-list test that `pat` occurs at the start of `l`
(JS `String.startsWith`). -/
def startsWithChars : List Char → List Char → Bool
  | _, [] => true
  | [], _ :: _ => false
  | c :: cs, p :: ps => c == p && startsWithChars cs ps

/-- Character-list substring test (JS `String.includes`). -/
def hasSubChars : List Char → List Char → Bool
  | [], pat => pat.isEmpty
  | c :: cs, pat => startsWithChars (c :: cs) pat || hasSubChars cs pat

/-- JS `startsWith` on strings, character-wise. -/
def strStartsWith (s p : String) : Bool := startsWithChars s.data p.data

/-- Errors thrown across the pipeline. `cm` carries a cause chain as in the
`CMError`/`ErrorWithCause` classes; `logged` is `LoggedError` thrown by
`validateJson` after logging schema errors; `configParse` is
`ConfigParseError`. -/
inductive CMErr where
  | err (msg : String)
  | configParse (msg : String)
  | logged
  | cm (msg : String) (cause : CMErr)
deriving DecidableEq, Repr

/-- The top-level message of an error. -/
def CMErr.message : CMErr → String
  | .err m => m
  | .configParse m => m
  | .logged => "Config schema validity failure"
  | .cm m _ => m

deriving instance DecidableEq for Except

/-! ## Rule evaluation engine (`Rule.run` in part_002) -/

/-- The canonical identity of a rule instance: the premise quadruple
`{kind, config, authorIs, itemIs}` (`Rule.getPremise`). Two premises have the
same canonical hash exactly when they are structurally equal. -/
structure RulePremise where
  kind : String
  config : JVal
  authorIs : JVal
  itemIs : JVal
deriving DecidableEq, Repr

/-- The result entity produced by one rule evaluation (`RuleResultEntity`).
Fields not assigned by the constructor remain `none` (JS `undefined`). -/
structure RuleResultEntity where
  premise : RulePremise
  triggered : Option Bool := none
  result : Option String := none
  fromCache : Option Bool := none
  data : Option JVal := none
  itemIs : Option JVal := none
  authorIs : Option JVal := none
deriving DecidableEq, Repr

/-- Modelled from the spec: `findResultByPremise` (in `util`, not among the
analysed sources) returns the first prior result whose premise has an
identical canonical premise hash — with a canonical hash, the first result
whose premise is structurally equal. -/
def findResultByPremise (prem : RulePremise) (results : List RuleResultEntity) :
    Option RuleResultEntity :=
  results.find? (fun r => r.premise == prem)

/-- The states of the per-(rule, item, pass) evaluation, used to record the
order in which `Rule.run` reaches each stage. -/
inductive RunState where
  | cacheLookup
  | itemFilter
  | authorFilter
  | process
  | done
  | skipped
deriving DecidableEq, Repr

/-- The outcome of the kind-specific `process` implementation: the `triggered`
boolean plus the plain result fields copied onto the entity. -/
structure ProcessOut where
  triggered : Bool
  result : Option String := none
  data : Option JVal := none
deriving DecidableEq, Repr

/-- One rule instance poised to run against one item: its premise entity, the
length of its `itemIs` criteria list, and oracles for the outcome of
`checkItemFilter`, `checkAuthorFilter` (pass flag, filter type, filter result
snapshot) and of the kind-specific `process`. -/
structure RuleSpec where
  premise : RulePremise
  itemIsLen : Nat
  itemFilter : Except CMErr (Bool × Option String × JVal)
  authorFilter : Except CMErr (Bool × Option String × JVal)
  process : Except CMErr ProcessOut
deriving Repr

/-- Embedding of `Rule.run` (part_002, lines 96-141). Returns the list of
states reached, in order, together with the returned
`[triggered, RuleResultEntity]` pair or the propagated error. -/
def Rule.run (spec : RuleSpec) (existingResults : List RuleResultEntity) :
    List RunState × Except CMErr (Option Bool × RuleResultEntity) :=
  let res0 : RuleResultEntity := { premise := spec.premise }
  match findResultByPremise spec.premise existingResults with
  | some existingResult =>
      -- `return [existingResult.triggered ?? null, existingResult]`
      ([.cacheLookup, .done], .ok (existingResult.triggered, existingResult))
  | none =>
    match spec.itemFilter with
    | .error e => ([.cacheLookup, .itemFilter], .error e)
    | .ok (itemPass, _itemFilterType, itemFilterResults) =>
      let res1 := if spec.itemIsLen > 0 then { res0 with itemIs := some itemFilterResults } else res0
      if !itemPass then
        ([.cacheLookup, .itemFilter, .skipped],
          .ok (none, { res1 with result := some "Item did not pass \x27itemIs\x27 test" }))
      else
        match spec.authorFilter with
        | .error e => ([.cacheLookup, .itemFilter, .authorFilter], .error e)
        | .ok (authFilterResult, authFilterType, authFilterRes) =>
          let res2 := if authFilterType.isSome then { res1 with authorIs := some authFilterRes } else res1
          if !authFilterResult then
            ([.cacheLookup, .itemFilter, .authorFilter, .skipped],
              .ok (none, { res2 with
                result := some ((authFilterType.getD "undefined") ++ " author criteria not matched") }))
          else
            match spec.process with
            | .error e => ([.cacheLookup, .itemFilter, .authorFilter, .process], .error e)
            | .ok p =>
              ([.cacheLookup, .itemFilter, .authorFilter, .process, .done],
                .ok (some p.triggered, { res2 with
                  triggered := some p.triggered
                  result := p.result
                  fromCache := some false
                  data := p.data }))

/-- Modelled from the spec: one evaluation pass over a list of rules (the
Check runner is not among the analysed sources). Rules run in declared order
and every produced result entity is appended to the accumulating
`existingResults` handed to later rules; an error aborts the pass. Returns
the produced entities together with each rule's reached-state trace. -/
def runPass (rules : List RuleSpec) (existingResults : List RuleResultEntity) :
    Except CMErr (List (List RunState × RuleResultEntity)) :=
  match rules with
  | [] => .ok []
  | spec :: rest =>
    match Rule.run spec existingResults with
    | (_, .error e) => .error e
    | (trace, .ok (_, entity)) =>
      (runPass rest (existingResults ++ [entity])).map (fun tl => (trace, entity) :: tl)

/-! ## Named rule registry (`extractNamedRules`, ConfigBuilder.ts 470-504) -/

/-- A rule configuration object. `config` groups the kind-specific settings;
`authorIs`/`itemIs` are the raw filter fields. -/
structure RuleConfigObject where
  name : Option String := none
  kind : String
  config : JVal := .null
  authorIs : Option JVal := none
  itemIs : Option JVal := none
deriving DecidableEq, Repr

/-- A rule, minus its name field (`const {name: n, ...rest} = rule`), for the
deep structural equality comparison of conflicting registrations. -/
def RuleConfigObject.noName (r : RuleConfigObject) : RuleConfigObject :=
  { r with name := none }

/-- A member of a rule set's `rules` list (`RuleConfigData`): a string
reference or a rule object. -/
inductive RuleSetRuleEntry where
  | strRef (s : String)
  | rule (r : RuleConfigObject)
deriving DecidableEq, Repr

/-- An entry of a `rules` array as `extractNamedRules` sees it: a string
reference, a rule object (an object whose `kind` is defined), or a rule set
(an object without `kind`, carrying its own `rules`, which per the config
data types holds only strings and rule objects). -/
inductive RuleEntry where
  | strRef (s : String)
  | rule (r : RuleConfigObject)
  | ruleset (rules : List RuleSetRuleEntry)
deriving DecidableEq, Repr

/-- Modelled from the spec: `normalizeName` (in `util`, not among the analysed
sources) produces the case-insensitive registry key, i.e. lower-cases the
name. -/
def normalizeName (s : String) : String := toLowerStr s

/-- The registration step shared by all rules reaching `rulesToAdd`: on a
fresh normalized key the rule is stored; on a repeated key the rule minus its
name must be deep-structurally equal to the stored one, else the
naming-conflict error identifying the name is thrown. -/
def addNamedRule (namedRules : List (String × RuleConfigObject)) (rule : RuleConfigObject) :
    Except CMErr (List (String × RuleConfigObject)) :=
  match rule.name with
  | none => .ok namedRules -- unreachable: only rules carrying a name are added
  | some name =>
    let normalName := normalizeName name
    match namedRules.lookup normalName with
    | some existing =>
      if existing.noName = rule.noName then .ok namedRules
      else .error (.err ("Rule names must be unique (case-insensitive). Conflicting name: " ++ name))
    | none => .ok (namedRules ++ [(normalName, rule)])

/-- The recursive `extractNamedRules` call on a rule set's own `rules` list
(ConfigBuilder.ts 483), which per the config data types holds only strings
and rule objects: the same algorithm restricted to that shape. -/
def extractNamedRulesOfSet (rules : List RuleSetRuleEntry)
    (namedRules : List (String × RuleConfigObject) := []) :
    Except CMErr (List (String × RuleConfigObject)) :=
  match rules with
  | [] => .ok namedRules
  | r :: rest => do
    let rulesToAdd : List RuleConfigObject :=
      match r with
      | .strRef _ => []
      | .rule rule => if rule.name.isSome then [rule] else []
    let m ← rulesToAdd.foldlM addNamedRule namedRules
    extractNamedRulesOfSet rest m

/-- Embedding of `extractNamedRules` (ConfigBuilder.ts 470-504): strings are
skipped, named rules are registered, rule sets are recursed into with a fresh
map whose values are then registered into the accumulating map. -/
def extractNamedRules (rules : List RuleEntry)
    (namedRules : List (String × RuleConfigObject) := []) :
    Except CMErr (List (String × RuleConfigObject)) :=
  match rules with
  | [] => .ok namedRules
  | r :: rest => do
    let rulesToAdd : List RuleConfigObject ←
      match r with
      | .strRef _ => pure []
      | .rule rule => pure (if rule.name.isSome then [rule] else [])
      | .ruleset rs => (extractNamedRulesOfSet rs []).map (fun nested => nested.map Prod.snd)
    let m ← rulesToAdd.foldlM addNamedRule namedRules
    extractNamedRules rest m

/-! ## Named filter registry and composition (ConfigBuilder.ts 506-693) -/

/-- A named criteria pairing (`NamedCriteria<T>`): an optional name plus the
criteria object. -/
structure NamedCriteria (T : Type) where
  name : Option String := none
  criteria : T
deriving DecidableEq, Repr

/-- One element of a filter field (`MaybeAnonymousOrStringCriteria<T>`): a
string reference, an object in named-criteria shape (recognized by
`asNamedCriteria`), or an inline anonymous criteria. -/
inductive CriteriaRef (T : Type) where
  | strRef (s : String)
  | named (c : NamedCriteria T)
  | anon (criteria : T)
deriving DecidableEq, Repr

/-- A raw filter field (`MinimalOrFullFilterJson<T>`): either the shorthand
array of OR predicates, or an object with optional `include`/`exclude`
arrays (fields `incl`/`excl` here; `include` is reserved in Lean). -/
inductive FilterJson (T : Type) where
  | minimal (xs : List (CriteriaRef T))
  | full (incl : Option (List (CriteriaRef T))) (excl : Option (List (CriteriaRef T)))
deriving DecidableEq, Repr

/-- Embedding of `addToNamedFilter` (ConfigBuilder.ts 508-518): strings and
anonymous criteria are ignored; a named criteria is registered under its
lower-cased name, and any repeated key throws the conflict error. -/
def addToNamedFilter {T : Type} (namedFilter : List (String × NamedCriteria T))
    (filterName : String) (val : CriteriaRef T) :
    Except CMErr (List (String × NamedCriteria T)) :=
  match val with
  | .strRef _ => .ok namedFilter
  | .anon _ => .ok namedFilter
  | .named c =>
    match c.name with
    | none => .ok namedFilter
    | some name =>
      if (namedFilter.lookup (toLowerStr name)).isSome then
        .error (.err ("names for " ++ filterName ++
          " filters must be unique (case-insensitive). Conflicting name " ++ name))
      else .ok (namedFilter ++ [(toLowerStr name, c)])

/-- Embedding of `parseFilterJson` (ConfigBuilder.ts 520-537): feed every
element of a filter field (shorthand array, or `include` then `exclude`
lists) to the registration step. -/
def parseFilterJson {T : Type} (namedFilter : List (String × NamedCriteria T))
    (filterName : String) (val : Option (FilterJson T)) :
    Except CMErr (List (String × NamedCriteria T)) :=
  match val with
  | none => .ok namedFilter
  | some (.minimal xs) => xs.foldlM (addToNamedFilter · filterName ·) namedFilter
  | some (.full incl excl) => do
    let m ← (incl.getD []).foldlM (addToNamedFilter · filterName ·) namedFilter
    (excl.getD []).foldlM (addToNamedFilter · filterName ·) m

/-- The raw `authorIs`/`itemIs` pair carried by runs, checks, rules and
actions (`RunnableBaseJson`). -/
structure RunnableBaseJson where
  authorIs : Option (FilterJson JVal) := none
  itemIs : Option (FilterJson JVal) := none
deriving DecidableEq, Repr

/-- `filterCriteriaDefaults` as the filter walk reads it. -/
structure FilterCriteriaDefaultsH where
  authorIs : Option (FilterJson JVal) := none
  itemIs : Option (FilterJson JVal) := none
deriving DecidableEq, Repr

/-- A member of a rule set in the hydrated document, as the filter walk sees
it: a string reference or a rule. -/
inductive RuleSetMemberH where
  | strRef (s : String)
  | rule (r : RunnableBaseJson)
deriving DecidableEq, Repr

/-- A `rules` entry in the hydrated document, as the filter walk sees it. -/
inductive RuleEntryH where
  | strRef (s : String)
  | ruleset (rules : List RuleSetMemberH)
  | rule (r : RunnableBaseJson)
deriving DecidableEq, Repr

/-- An `actions` entry in the hydrated document, as the filter walk sees it. -/
inductive ActionEntryH where
  | strRef (s : String)
  | action (authorIs : Option (FilterJson JVal))
deriving DecidableEq, Repr

/-- A check of the hydrated document, as the filter walk sees it. -/
structure CheckH where
  authorIs : Option (FilterJson JVal) := none
  itemIs : Option (FilterJson JVal) := none
  rules : Option (List RuleEntryH) := none
  actions : Option (List ActionEntryH) := none
deriving DecidableEq, Repr

/-- A run of the hydrated document, as the filter walk sees it. -/
structure RunH where
  filterCriteriaDefaults : Option FilterCriteriaDefaultsH := none
  authorIs : Option (FilterJson JVal) := none
  itemIs : Option (FilterJson JVal) := none
  checks : List CheckH := []
deriving DecidableEq, Repr

/-- The hydrated document, as the filter walk sees it. -/
structure ConfigH where
  filterCriteriaDefaults : Option FilterCriteriaDefaultsH := none
  runs : List RunH := []
deriving DecidableEq, Repr

/-- The two filter registries threaded through `extractNamedFilters`. -/
abbrev FilterMaps := List (String × NamedCriteria JVal) × List (String × NamedCriteria JVal)

/-- The filter walk over one check (inner body of the run loop of
`extractNamedFilters`, ConfigBuilder.ts 605-633). Note the source parses
`c.itemIs` again for every rule, rule-set member and action of the check. -/
def extractNamedFiltersCheck (st : FilterMaps) (c : CheckH) : Except CMErr FilterMaps := do
  let aM ← parseFilterJson st.1 "authorIs" c.authorIs
  let iM ← parseFilterJson st.2 "itemIs" c.itemIs
  let st ← (c.rules.getD []).foldlM (fun (st : FilterMaps) ru => do
    match ru with
    | .strRef _ => pure st
    | .ruleset rules =>
      rules.foldlM (fun (st : FilterMaps) rr => do
        match rr with
        | .strRef _ => pure st
        | .rule r => do
          let aM ← parseFilterJson st.1 "authorIs" r.authorIs
          let iM ← parseFilterJson st.2 "itemIs" c.itemIs
          pure (aM, iM)) st
    | .rule r => do
      let aM ← parseFilterJson st.1 "authorIs" r.authorIs
      let iM ← parseFilterJson st.2 "itemIs" c.itemIs
      pure (aM, iM)) (aM, iM)
  (c.actions.getD []).foldlM (fun (st : FilterMaps) a => do
    match a with
    | .strRef _ => pure st
    | .action authorIs => do
      let aM ← parseFilterJson st.1 "authorIs" authorIs
      let iM ← parseFilterJson st.2 "itemIs" c.itemIs
      pure (aM, iM)) st

/-- Embedding of `extractNamedFilters` (ConfigBuilder.ts 539-635). The run
loop destructures the run's own `filterCriteriaDefaults` into
`filterCriteriaDefaultsFromRun` but then parses the document-level
`filterCriteriaDefaults` again (source lines 600 and 603), exactly as the
source does. -/
def extractNamedFilters (config : ConfigH)
    (namedAuthorFilters : List (String × NamedCriteria JVal) := [])
    (namedItemFilters : List (String × NamedCriteria JVal) := []) :
    Except CMErr FilterMaps := do
  let aM ← parseFilterJson namedAuthorFilters "authorIs"
    (config.filterCriteriaDefaults.bind (·.authorIs))
  let iM ← parseFilterJson namedItemFilters "itemIs"
    (config.filterCriteriaDefaults.bind (·.itemIs))
  config.runs.foldlM (fun (st : FilterMaps) r => do
    let aM ← parseFilterJson st.1 "authorIs" (config.filterCriteriaDefaults.bind (·.authorIs))
    let aM ← parseFilterJson aM "authorIs" r.authorIs
    let iM ← parseFilterJson st.2 "itemIs" r.itemIs
    let iM ← parseFilterJson iM "itemIs" (config.filterCriteriaDefaults.bind (·.itemIs))
    r.checks.foldlM extractNamedFiltersCheck (aM, iM)) (aM, iM)

/-- Embedding of `getNamedOrReturn` (ConfigBuilder.ts 638-649). The presence
check lower-cases the reference but the subsequent `get` uses the reference
as written, exactly as the source does; the JS `undefined` a missed `get`
produces is modelled as `none`. -/
def getNamedOrReturn {T : Type} (namedFilters : List (String × NamedCriteria T))
    (filterName : String) (x : CriteriaRef T) :
    Except CMErr (Option (NamedCriteria T)) :=
  match x with
  | .strRef s =>
    if (namedFilters.lookup (toLowerStr s)).isNone then
      .error (.err ("No named " ++ filterName ++ " criteria with the name \x22" ++ s ++ "\x22"))
    else .ok (namedFilters.lookup s)
  | .named c => .ok (some c)
  | .anon c => .ok (some { criteria := c })

/-- A resolved filter field: every element replaced by what
`getNamedOrReturn` produced for it (`none` models JS `undefined`). -/
inductive StructuredFilter (T : Type) where
  | minimal (xs : List (Option (NamedCriteria T)))
  | full (incl : Option (List (Option (NamedCriteria T))))
         (excl : Option (List (Option (NamedCriteria T))))
deriving DecidableEq, Repr

/-- The resolved `authorIs`/`itemIs` pair (`StructuredRunnableBase`). -/
structure StructuredRunnableBase where
  authorIs : Option (StructuredFilter JVal) := none
  itemIs : Option (StructuredFilter JVal) := none
deriving DecidableEq, Repr

/-- Resolve one raw filter field through `getNamedOrReturn`, mirroring the
array / include / exclude branches of `insertNameFilters`. -/
def resolveFilterField (namedFilters : List (String × NamedCriteria JVal))
    (filterName : String) (val : Option (FilterJson JVal)) :
    Except CMErr (Option (StructuredFilter JVal)) :=
  match val with
  | none => .ok none
  | some (.minimal xs) =>
    (xs.mapM (getNamedOrReturn namedFilters filterName)).map (fun l => some (.minimal l))
  | some (.full incl excl) => do
    let incl' ← match incl with
      | none => pure none
      | some l => (l.mapM (getNamedOrReturn namedFilters filterName)).map some
    let excl' ← match excl with
      | none => pure none
      | some l => (l.mapM (getNamedOrReturn namedFilters filterName)).map some
    .ok (some (.full incl' excl'))

/-- Embedding of `insertNameFilters` (ConfigBuilder.ts 652-693): resolve the
`authorIs` and `itemIs` fields of one runnable. -/
def insertNameFilters (namedAuthorFilters namedItemFilters : List (String × NamedCriteria JVal))
    (val : RunnableBaseJson) : Except CMErr StructuredRunnableBase := do
  let authorIs ← resolveFilterField namedAuthorFilters "authorIs" val.authorIs
  let itemIs ← resolveFilterField namedItemFilters "itemIs" val.itemIs
  pure { authorIs, itemIs }

/-! ## Fragment resolution and document hydration (ConfigBuilder.ts 170-362) -/

/-- Modelled from the spec: `parseUrlContext` (in `util`, not among the
analysed sources) recognizes a string as a URL resource when it carries the
`url:` or `wiki:` resource-class marker at its start, per the reference
syntax of the external-interfaces section. -/
def parseUrlContext (s : String) : Option String :=
  if strStartsWith s "url:" || strStartsWith s "wiki:" then some s else none

/-- Modelled from the spec: `asIncludesData` (Common/Infrastructure/Includes,
not among the analysed sources) recognizes an include descriptor object — an
object carrying a string `path` field — and yields that path. -/
def asIncludesData (v : JVal) : Option String :=
  match v.get "path" with
  | some (.str p) => some p
  | _ => none

/-- A validator callback (`ConfigFragmentValidationFunc`): receives the data
and whether it was fetched, raises on schema violation. -/
abbrev ValidateFunc := JVal → Bool → Except CMErr Bool

/-- Modelled from the spec: `SubredditResources.getConfigFragment` (not among
the analysed sources) fetches and parses the referenced remote resource
(failures propagate) and invokes the supplied validator on the parsed data
with `fetched = true`. Alongside the data it returns the list of
`(data, fetched)` argument pairs the validator was applied to. -/
def getConfigFragment (fetch : String → Except CMErr JVal) (path : String)
    (validateFunc : Option ValidateFunc) : Except CMErr (JVal × List (JVal × Bool)) := do
  let data ← fetch path
  match validateFunc with
  | none => pure (data, [])
  | some f => do
    let _ ← f data true
    pure (data, [(data, true)])

/-- Embedding of `ConfigBuilder.hydrateConfigFragment` (ConfigBuilder.ts
170-203). Returns the resolved list together with the list of `(data,
fetched)` argument pairs the supplied validator was applied to during the
call. -/
def hydrateConfigFragment (val : JVal) (fetch : String → Except CMErr JVal)
    (validateFunc : Option ValidateFunc) : Except CMErr (List JVal × List (JVal × Bool)) := do
  let includes : Option String ←
    match val with
    | .str s => pure ((parseUrlContext s).map (fun _ => s))
    | _ =>
      match asIncludesData val with
      | some path =>
        if (parseUrlContext path).isSome then pure (some path)
        else .error (.configParse
          ("Could not detect Config Fragment path as a valid URL Resource. Resource must be prefixed with either \x27url:\x27 or \x27wiki:\x27 -- " ++ path))
      | none => pure none
  match includes with
  | none =>
    match val with
    | .arr xs => pure (xs, [])
    | _ => pure ([val], [])
  | some path => do
    let (resolvedFragment, calls) ← getConfigFragment fetch path validateFunc
    match resolvedFragment with
    | .arr xs => pure (xs, calls)
    | _ => pure ([resolvedFragment], calls)

/-- Embedding of `validateJson` (ConfigBuilder.ts 105-154) with the ajv
schema check abstracted into a boolean oracle: a valid config is returned
unchanged, an invalid one raises `LoggedError` after logging. -/
def validateJson (schema : JVal → Bool) (config : JVal) : Except CMErr JVal :=
  if schema config then .ok config else .error .logged

/-- The oracles hydration depends on: the remote fetch-and-parse and the
three ajv schemas. -/
structure HydrateEnv where
  fetch : String → Except CMErr JVal
  runSchema : JVal → Bool
  checkSchema : JVal → Bool
  appSchema : JVal → Bool

/-- The validator passed for Run fragments (ConfigBuilder.ts 231-243): on
fetched data, validate each element (or the single object) against the Run
schema; literals pass. -/
def runValidator (env : HydrateEnv) : ValidateFunc := fun data fetched =>
  if fetched then
    match data with
    | .arr xs => do
      let _ ← xs.mapM (validateJson env.runSchema)
      pure true
    | _ => (validateJson env.runSchema data).map (fun _ => true)
  else pure true

/-- The validator passed for Check fragments (ConfigBuilder.ts 264-276). -/
def checkValidator (env : HydrateEnv) : ValidateFunc := fun data fetched =>
  if fetched then
    match data with
    | .arr xs => do
      let _ ← xs.mapM (validateJson env.checkSchema)
      pure true
    | _ => (validateJson env.checkSchema data).map (fun _ => true)
  else pure true

/-- Modelled from the spec: `isRuleSetJSON` (Rule/RuleSet, not among the
analysed sources) recognizes a rule-set object, i.e. an object carrying its
own `rules` list. -/
def isRuleSetJSON (v : JVal) : Bool :=
  (v.get "rules").isSome

/-- Hydration of the `rules` list of one check (ConfigBuilder.ts 294-322).
`ruleIndex` is threaded exactly as in the source: it starts at 1 and is
incremented once per resolved rule-or-set element. The positional wrap on a
fragment failure names the Rule number and the Check number; rule-set member
fragments are hydrated outside that wrap, as in the source. -/
def hydrateRuleList (env : HydrateEnv) (checkIndex : Nat) :
    List JVal → Nat → Except CMErr (List JVal)
  | [], _ => .ok []
  | r :: rest, ruleIndex =>
    match hydrateConfigFragment r env.fetch none with
    | .error e => .error (.cm ("Rule Config Fragment #" ++ toString ruleIndex ++
        " in Check #" ++ toString checkIndex ++ " could not be fetched") e)
    | .ok (hydratedRuleOrSetArr, _) => do
      let (items, ruleIndexAfter) ← hydratedRuleOrSetArr.foldlM
        (fun (acc : List JVal × Nat) hydratedRuleOrSet => do
          match hydratedRuleOrSet with
          | .str s => pure (acc.1 ++ [.str s], acc.2 + 1)
          | hv =>
            if isRuleSetJSON hv then do
              let hydratedRulesetRules ← (JVal.asArr (hv.get "rules")).foldlM
                (fun (acc2 : List JVal) rsr => do
                  let (arr2, _) ← hydrateConfigFragment rsr env.fetch none
                  pure (acc2 ++ arr2)) []
              pure (acc.1 ++ [hv.setKey "rules" (.arr hydratedRulesetRules)], acc.2 + 1)
            else
              pure (acc.1 ++ [hv], acc.2 + 1)) ([], ruleIndex)
      let tl ← hydrateRuleList env checkIndex rest ruleIndexAfter
      pure (items ++ tl)

/-- Hydration of the `actions` list of one check (ConfigBuilder.ts 326-343);
`actionIndex` increments once per resolved action. -/
def hydrateActionList (env : HydrateEnv) (checkIndex : Nat) :
    List JVal → Nat → Except CMErr (List JVal)
  | [], _ => .ok []
  | a :: rest, actionIndex =>
    match hydrateConfigFragment a env.fetch none with
    | .error e => .error (.cm ("Action Config Fragment #" ++ toString actionIndex ++
        " in Check #" ++ toString checkIndex ++ " could not be fetched") e)
    | .ok (hydratedActionArr, _) => do
      let tl ← hydrateActionList env checkIndex rest (actionIndex + hydratedActionArr.length)
      pure (hydratedActionArr ++ tl)

/-- Processing of one resolved check element (ConfigBuilder.ts 281-345): a
string is a shape error; otherwise `rules` and `actions` are split off,
hydrated and reattached. -/
def processCheckData (env : HydrateEnv) (runIndex checkIndex : Nat)
    (hydratedCheckData : JVal) : Except CMErr JVal :=
  match hydratedCheckData with
  | .str s => .error (.configParse ("Check #" ++ toString checkIndex ++ " in Run #" ++
      toString runIndex ++ " was not in a recognized include format. Given: " ++ s))
  | c => do
    let rest := c.removeKeys ["rules", "actions"]
    let withRules ←
      match c.get "rules" with
      | none => pure rest
      | some rv => do
        let hydrated ← hydrateRuleList env checkIndex (JVal.asArr (some rv)) 1
        pure (rest.setKey "rules" (.arr hydrated))
    match c.get "actions" with
    | none => pure withRules
    | some av => do
      let hydratedA ← hydrateActionList env checkIndex (JVal.asArr (some av)) 1
      pure (withRules.setKey "actions" (.arr hydratedA))

/-- Hydration of the `checks` list of one run (ConfigBuilder.ts 258-348);
`checkIndex` increments once per resolved check element. Failures of the
check fragment itself are wrapped with Check and Run numbers; failures from
deeper levels propagate as produced, as in the source. -/
def hydrateCheckList (env : HydrateEnv) (runIndex : Nat) :
    List JVal → Nat → Except CMErr (List JVal)
  | [], _ => .ok []
  | c :: rest, checkIndex =>
    match hydrateConfigFragment c env.fetch (some (checkValidator env)) with
    | .error e => .error (.cm ("Could not fetch or validate Check Config Fragment #" ++
        toString checkIndex ++ " in Run #" ++ toString runIndex) e)
    | .ok (hydratedCheckDataArr, _) => do
      let (checks, checkIndexAfter) ← hydratedCheckDataArr.foldlM
        (fun (acc : List JVal × Nat) h => do
          let hc ← processCheckData env runIndex acc.2 h
          pure (acc.1 ++ [hc], acc.2 + 1)) ([], checkIndex)
      let tl ← hydrateCheckList env runIndex rest checkIndexAfter
      pure (checks ++ tl)

/-- Processing of one resolved run element (ConfigBuilder.ts 248-354): a
string is a shape error; otherwise the run's checks are hydrated and
reattached. -/
def processRunData (env : HydrateEnv) (runIndex : Nat) (hydratedRunVal : JVal) :
    Except CMErr JVal :=
  match hydratedRunVal with
  | .str s => .error (.configParse ("Run Config Fragment #" ++ toString runIndex ++
      " was not in a recognized Config Fragment format. Given: " ++ s))
  | r => do
    let hydratedChecks ← hydrateCheckList env runIndex (JVal.asArr (r.get "checks")) 1
    pure ((r.removeKeys ["checks"]).setKey "checks" (.arr hydratedChecks))

/-- Hydration of the top-level run list (ConfigBuilder.ts 225-355);
`runIndex` increments once per resolved run element. -/
def hydrateRunList (env : HydrateEnv) :
    List JVal → Nat → Except CMErr (List JVal)
  | [], _ => .ok []
  | r :: rest, runIndex =>
    match hydrateConfigFragment r env.fetch (some (runValidator env)) with
    | .error e => .error (.cm ("Could not fetch or validate Run #" ++ toString runIndex) e)
    | .ok (hydratedRunArr, _) => do
      let (runs, runIndexAfter) ← hydratedRunArr.foldlM
        (fun (acc : List JVal × Nat) h => do
          let hr ← processRunData env acc.2 h
          pure (acc.1 ++ [hr], acc.2 + 1)) ([], runIndex)
      let tl ← hydrateRunList env rest runIndexAfter
      pure (runs ++ tl)

/-- The synthetic run wrapping a top-level `checks` list
(`{name: 'Run1', checks: checks}`, ConfigBuilder.ts 220). -/
def mkRun1 (checks : List JVal) : JVal :=
  .obj [("name", .str "Run1"), ("checks", .arr checks)]

/-- Embedding of `ConfigBuilder.hydrateConfig` (ConfigBuilder.ts 205-362). -/
def hydrateConfig (env : HydrateEnv) (config : JVal) : Except CMErr JVal :=
  let runs := JVal.asArr (config.get "runs")
  let checks := JVal.asArr (config.get "checks")
  if checks.length > 0 && runs.length > 0 then
    .error (.err "Subreddit configuration cannot contain both \x27checks\x27 and \x27runs\x27 at top-level.")
  else do
    let realRuns := if checks.length > 0 then runs ++ [mkRun1 checks] else runs
    let hydratedRuns ← hydrateRunList env realRuns 1
    let hydratedConfig := (config.removeKeys ["runs", "checks"]).setKey "runs" (.arr hydratedRuns)
    validateJson env.appSchema hydratedConfig

/-! ## `SubredditResources.getAuthorActivities` (SubredditResources.ts 66-91) -/

/-- The state of a `SubredditResources` instance relevant to the author
activities cache. -/
structure SubredditResourcesS where
  enabled : Bool
  authorTTL : Int
  useSubredditAuthorCache : Bool
  name : String
deriving DecidableEq, Repr

/-- The shared module-level `memory-cache` store, keyed by the hashed value.
With the canonical hash modelled as injective, keys are the hashed values
themselves. -/
abbrev ActivityCache := List (JVal × List JVal)

/-- `cache.get`: `null` on a miss is modelled as `none`. -/
def cacheGet (c : ActivityCache) (k : JVal) : Option (List JVal) :=
  (c.find? (fun p => p.1 == k)).map Prod.snd

/-- `cache.put` (only reached after a miss). -/
def cachePut (c : ActivityCache) (k : JVal) (v : List JVal) : ActivityCache :=
  c ++ [(k, v)]

/-- The `hashObj` assembled by `getAuthorActivities` (SubredditResources.ts
71-74): the options spread together with the user name, plus the subreddit
name when the instance has its own per-subreddit author cache. -/
def authorActivitiesHashObj (res : SubredditResourcesS) (userName : String)
    (options : JVal) : JVal :=
  let hashObj := options.setKey "userName" (.str userName)
  if res.useSubredditAuthorCache then hashObj.setKey "subreddit" (.str res.name) else hashObj

/-- The key actually hashed and used (SubredditResources.ts 75 hashes
`{...options, userName}`, not `hashObj`). -/
def authorActivitiesKey (userName : String) (options : JVal) : JVal :=
  options.setKey "userName" (.str userName)

/-- Embedding of `SubredditResources.getAuthorActivities` (SubredditResources
.ts 66-91). `fetched` stands for the result of the live
`getAuthorActivities` helper; returns the items handed back, the cache after
the call, and whether the live fetch ran. -/
def SubredditResources.getAuthorActivities (res : SubredditResourcesS)
    (userName : String) (options : JVal) (fetched : List JVal) (c : ActivityCache) :
    List JVal × ActivityCache × Bool :=
  let useCache := res.enabled && res.authorTTL > 0
  if useCache then
    let hash := authorActivitiesKey userName options
    match cacheGet c hash with
    | some cacheVal => (cacheVal, c, false)
    | none => (fetched, cachePut c hash fetched, true)
  else (fetched, c, true)

/-! ## `ActionPremise` constructor (Common/Entities/ActionPremise.ts 73-109) -/

/-- The `authorIs` filter options of a premise (`AuthorOptions`): optional
`include`/`exclude` predicate lists (fields `incl`/`excl` here; `include` is
reserved in Lean) and the exclude-join condition. -/
structure AuthorOptions where
  incl : Option (List JVal) := none
  excl : Option (List JVal) := none
  excludeCondition : Option String := none
deriving DecidableEq, Repr

/-- A premise as handed to the `ActionPremise` constructor (`ObjectPremise`):
kind-specific config plus the raw filters. -/
structure ObjectPremise where
  kind : String
  config : JVal
  authorIs : Option AuthorOptions := none
  itemIs : Option (List JVal) := none
deriving DecidableEq, Repr

/-- The constructor options (`ActionPremiseOptions`); the database manager
reference is irrelevant to the stored filter configs and omitted. -/
structure ActionPremiseOptions where
  kind : String
  config : ObjectPremise
  active : Option Bool := none
  name : Option String := none
deriving DecidableEq, Repr

/-- The persisted `ActionPremise` entity. The `*Hash` columns hold
`objectHash.sha1` of the neighbouring config columns; with the canonical hash
modelled as injective they hold the hashed values themselves. -/
structure ActionPremise where
  name : Option String := none
  kind : String
  config : JVal
  configHash : ObjectPremise
  active : Bool
  itemIsConfig : Option (List JVal) := none
  itemIsConfigHash : Option (List JVal) := none
  authorIsConfig : Option AuthorOptions := none
  authorIsConfigHash : Option AuthorOptions := none
deriving DecidableEq, Repr

/-- Embedding of the `ActionPremise` constructor (ActionPremise.ts 73-109):
destructures `include`/`exclude` (defaulting to `[]`) and `itemIs`
(defaulting to `[]`) out of the premise; stores `itemIs` and its hash when
non-empty; stores `{include}` as the author config when `include` is
non-empty, else `{excludeCondition, exclude}` when `exclude` is non-empty. -/
def ActionPremise.ofOptions (data : ActionPremiseOptions) : ActionPremise :=
  let inclList := (data.config.authorIs.bind (·.incl)).getD []
  let exclList := (data.config.authorIs.bind (·.excl)).getD []
  let itemIs := data.config.itemIs.getD []
  let authorIsConfig : Option AuthorOptions :=
    if inclList.length > 0 || exclList.length > 0 then
      some (if inclList.length > 0 then { incl := some inclList }
        else { excludeCondition := data.config.authorIs.bind (·.excludeCondition)
               excl := some exclList })
    else none
  { kind := data.kind
    config := data.config.config
    active := data.active.getD true
    configHash := data.config
    name := data.name
    itemIsConfig := if itemIs.length > 0 then some itemIs else none
    itemIsConfigHash := if itemIs.length > 0 then some itemIs else none
    authorIsConfig := authorIsConfig
    authorIsConfigHash := authorIsConfig }

/-- The result entity produced by a first, uncached, fully-processed rule
evaluation: filters passed, `process` ran and its outcome was copied onto the
entity with `fromCache = false`. -/
def firstRunEntity (prem : RulePremise) (itemIsLen : Nat) (_ft : Option String) (fr : JVal)
    (at' : Option String) (ar : JVal) (p : ProcessOut) : RuleResultEntity :=
  { premise := prem
    triggered := some p.triggered
    result := p.result
    fromCache := some false
    data := p.data
    itemIs := if itemIsLen > 0 then some fr else none
    authorIs := if at'.isSome then some ar else none }

/-- Helper: the registration candidates contributed by one `rules` entry. -/
def extractStep (x : RuleEntry) : Except CMErr (List RuleConfigObject) :=
  match x with
  | .strRef _ => pure []
  | .rule rule => pure (if rule.name.isSome then [rule] else [])
  | .ruleset rs => (extractNamedRulesOfSet rs []).map (fun nested => nested.map Prod.snd)

/-! # Theorems -/

/-! ## C1 and C2: per-pass premise cache in `Rule.run` -/

/-- C1 (counterexample): two rules with identical premises evaluated in one
pass; the first reaches PROCESS, the second is answered from the pass cache —
but the second returned result carries `fromCache = false` (the stored
value), not `fromCache = true` as claimed. -/
theorem c1_fromCache_counterexample :
    runPass
      [{ premise := ⟨"recentActivity", .obj [("window", .num 7)], .arr [], .arr []⟩,
         itemIsLen := 0
         itemFilter := .ok (true, none, .arr [])
         authorFilter := .ok (true, none, .arr [])
         process := .ok { triggered := true, result := some "rule matched" } },
       { premise := ⟨"recentActivity", .obj [("window", .num 7)], .arr [], .arr []⟩,
         itemIsLen := 0
         itemFilter := .ok (true, none, .arr [])
         authorFilter := .ok (true, none, .arr [])
         process := .ok { triggered := true, result := some "rule matched" } }] [] =
      .ok [([.cacheLookup, .itemFilter, .authorFilter, .process, .done],
              { premise := ⟨"recentActivity", .obj [("window", .num 7)], .arr [], .arr []⟩,
                triggered := some true, result := some "rule matched", fromCache := some false }),
           ([.cacheLookup, .done],
              { premise := ⟨"recentActivity", .obj [("window", .num 7)], .arr [], .arr []⟩,
                triggered := some true, result := some "rule matched", fromCache := some false })] := by
  decide

/-- C1 (amended): in one evaluation pass, of two rule evaluations against the
same item with identical premises `{kind, config, authorIs, itemIs}` — the
first uncached, passing both filters and processing successfully — the
kind-specific PROCESS runs only in the first evaluation, and the second
evaluation returns the first evaluation's stored result verbatim; that
returned result keeps its stored `fromCache = false` flag (it is not
rewritten to `true`). -/
theorem c1_premise_cache_dedup_amended (s1 s2 : RuleSpec) (existing : List RuleResultEntity)
    (hfind : findResultByPremise s1.premise existing = none)
    (ft : Option String) (fr : JVal) (hitem : s1.itemFilter = .ok (true, ft, fr))
    (at' : Option String) (ar : JVal) (hauth : s1.authorFilter = .ok (true, at', ar))
    (p : ProcessOut) (hproc : s1.process = .ok p)
    (hprem : s2.premise = s1.premise) :
    Rule.run s1 existing =
      ([.cacheLookup, .itemFilter, .authorFilter, .process, .done],
        .ok (some p.triggered, firstRunEntity s1.premise s1.itemIsLen ft fr at' ar p)) ∧
    Rule.run s2 (existing ++ [firstRunEntity s1.premise s1.itemIsLen ft fr at' ar p]) =
      ([.cacheLookup, .done],
        .ok (some p.triggered, firstRunEntity s1.premise s1.itemIsLen ft fr at' ar p)) ∧
    (firstRunEntity s1.premise s1.itemIsLen ft fr at' ar p).fromCache = some false := by
  refine ⟨?_, ?_, rfl⟩
  · unfold Rule.run firstRunEntity
    rw [hfind, hitem, hauth, hproc]
    rcases hi : s1.itemIsLen with _ | n <;> rcases ha : at' with _ | v <;> simp [hi, ha]
  · unfold Rule.run
    unfold findResultByPremise
    rw [hprem, List.find?_append]
    unfold findResultByPremise at hfind
    rw [hfind]
    simp [List.find?, firstRunEntity]

/-- C1 (witness): the amended statement instantiated at two concrete
identical-premise attribution rules. -/
theorem c1_premise_cache_dedup_amended_witness :
    Rule.run
      { premise := ⟨"attribution", .obj [("threshold", .num 10)], .arr [], .arr []⟩,
        itemIsLen := 0
        itemFilter := .ok (true, none, .arr [])
        authorFilter := .ok (true, none, .arr [])
        process := .ok { triggered := false, result := some "no match" } } [] =
      ([.cacheLookup, .itemFilter, .authorFilter, .process, .done],
        .ok (some false,
          firstRunEntity ⟨"attribution", .obj [("threshold", .num 10)], .arr [], .arr []⟩ 0
            none (.arr []) none (.arr []) { triggered := false, result := some "no match" })) ∧
    Rule.run
      { premise := ⟨"attribution", .obj [("threshold", .num 10)], .arr [], .arr []⟩,
        itemIsLen := 0
        itemFilter := .ok (true, none, .arr [])
        authorFilter := .ok (true, none, .arr [])
        process := .ok { triggered := false, result := some "no match" } }
      ([] ++ [firstRunEntity ⟨"attribution", .obj [("threshold", .num 10)], .arr [], .arr []⟩ 0
            none (.arr []) none (.arr []) { triggered := false, result := some "no match" }]) =
      ([.cacheLookup, .done],
        .ok (some false,
          firstRunEntity ⟨"attribution", .obj [("threshold", .num 10)], .arr [], .arr []⟩ 0
            none (.arr []) none (.arr []) { triggered := false, result := some "no match" })) ∧
    (firstRunEntity ⟨"attribution", .obj [("threshold", .num 10)], .arr [], .arr []⟩ 0
        none (.arr []) none (.arr []) { triggered := false, result := some "no match" }).fromCache =
      some false :=
  c1_premise_cache_dedup_amended _ _ [] (by decide) none (.arr []) rfl none (.arr []) rfl
    { triggered := false, result := some "no match" } rfl rfl

/-- Helper: on a premise-cache hit, `Rule.run` returns the stored result
immediately after the cache lookup. -/
theorem Rule.run_cacheHit (spec : RuleSpec) (existing : List RuleResultEntity)
    (ex : RuleResultEntity) (h : findResultByPremise spec.premise existing = some ex) :
    Rule.run spec existing = ([.cacheLookup, .done], .ok (ex.triggered, ex)) := by
  unfold Rule.run
  rw [h]

/-- Helper: on a premise-cache miss, the first two stages reached are the
cache lookup and then the item filter. -/
theorem Rule.run_cacheMiss_take (spec : RuleSpec) (existing : List RuleResultEntity)
    (h : findResultByPremise spec.premise existing = none) :
    (Rule.run spec existing).1.take 2 = [.cacheLookup, .itemFilter] := by
  unfold Rule.run
  rw [h]
  rcases hi : spec.itemFilter with e | ⟨pass, ft, fr⟩
  · simp
  · rcases pass with _ | _
    · simp
    · rcases ha : spec.authorFilter with e | ⟨apass, atype, ares⟩
      · simp
      · rcases apass with _ | _
        · simp
        · rcases hp : spec.process with e | p <;> simp

/-- C2 (counterexample): a rule whose item filter would fail, evaluated with
a prior same-premise result in the pass cache: the cached result is returned
even though neither filter gate was evaluated, contradicting the claimed
`ITEM_FILTER → AUTHOR_FILTER → CACHE_LOOKUP` ordering. -/
theorem c2_filter_order_counterexample :
    Rule.run
      { premise := ⟨"regex", .obj [("regex", .str "foo")], .arr [], .arr [.obj [("removed", .bool false)]]⟩,
        itemIsLen := 1
        itemFilter := .ok (false, some "item", .arr [])
        authorFilter := .ok (true, none, .arr [])
        process := .ok { triggered := true } }
      [{ premise := ⟨"regex", .obj [("regex", .str "foo")], .arr [], .arr [.obj [("removed", .bool false)]]⟩,
         triggered := some true, result := some "matched", fromCache := some false }] =
      ([.cacheLookup, .done],
        .ok (some true,
          { premise := ⟨"regex", .obj [("regex", .str "foo")], .arr [], .arr [.obj [("removed", .bool false)]]⟩,
            triggered := some true, result := some "matched", fromCache := some false })) ∧
    RunState.itemFilter ∉ [RunState.cacheLookup, RunState.done] ∧
    RunState.authorFilter ∉ [RunState.cacheLookup, RunState.done] := by
  refine ⟨by decide, by decide, by decide⟩

/-- C2 (amended): the per-pass cache lookup is the first stage of every rule
evaluation, before either filter gate: on a cache hit the stored result is
returned and neither filter gate nor PROCESS is reached; only on a cache miss
does the evaluation proceed to the item filter (and onward). -/
theorem c2_cache_lookup_first_amended (spec : RuleSpec) (existing : List RuleResultEntity) :
    (∀ ex, findResultByPremise spec.premise existing = some ex →
      Rule.run spec existing = ([.cacheLookup, .done], .ok (ex.triggered, ex)) ∧
      RunState.itemFilter ∉ (Rule.run spec existing).1 ∧
      RunState.authorFilter ∉ (Rule.run spec existing).1 ∧
      RunState.process ∉ (Rule.run spec existing).1) ∧
    (findResultByPremise spec.premise existing = none →
      (Rule.run spec existing).1.take 2 = [.cacheLookup, .itemFilter]) := by
  constructor
  · intro ex h
    rw [Rule.run_cacheHit spec existing ex h]
    refine ⟨rfl, ?_, ?_, ?_⟩ <;> simp
  · intro h
    exact Rule.run_cacheMiss_take spec existing h

/-- C2 (witness): the amended statement instantiated at a concrete history
rule, once with a cache hit and once with a cache miss. -/
theorem c2_cache_lookup_first_amended_witness :
    (Rule.run
        { premise := ⟨"history", .obj [], .arr [], .arr []⟩, itemIsLen := 0
          itemFilter := .ok (true, none, .arr [])
          authorFilter := .ok (true, none, .arr [])
          process := .ok { triggered := true } }
        [{ premise := ⟨"history", .obj [], .arr [], .arr []⟩, triggered := some false }] =
        ([.cacheLookup, .done],
          .ok (some false, { premise := ⟨"history", .obj [], .arr [], .arr []⟩, triggered := some false })) ∧
      RunState.itemFilter ∉ (Rule.run
        { premise := ⟨"history", .obj [], .arr [], .arr []⟩, itemIsLen := 0
          itemFilter := .ok (true, none, .arr [])
          authorFilter := .ok (true, none, .arr [])
          process := .ok { triggered := true } }
        [{ premise := ⟨"history", .obj [], .arr [], .arr []⟩, triggered := some false }]).1 ∧
      RunState.authorFilter ∉ (Rule.run
        { premise := ⟨"history", .obj [], .arr [], .arr []⟩, itemIsLen := 0
          itemFilter := .ok (true, none, .arr [])
          authorFilter := .ok (true, none, .arr [])
          process := .ok { triggered := true } }
        [{ premise := ⟨"history", .obj [], .arr [], .arr []⟩, triggered := some false }]).1 ∧
      RunState.process ∉ (Rule.run
        { premise := ⟨"history", .obj [], .arr [], .arr []⟩, itemIsLen := 0
          itemFilter := .ok (true, none, .arr [])
          authorFilter := .ok (true, none, .arr [])
          process := .ok { triggered := true } }
        [{ premise := ⟨"history", .obj [], .arr [], .arr []⟩, triggered := some false }]).1) ∧
    (Rule.run
        { premise := ⟨"history", .obj [], .arr [], .arr []⟩, itemIsLen := 0
          itemFilter := .ok (true, none, .arr [])
          authorFilter := .ok (true, none, .arr [])
          process := .ok { triggered := true } } []).1.take 2 =
      [.cacheLookup, .itemFilter] := by
  constructor
  · exact (c2_cache_lookup_first_amended
      { premise := ⟨"history", .obj [], .arr [], .arr []⟩, itemIsLen := 0
        itemFilter := .ok (true, none, .arr [])
        authorFilter := .ok (true, none, .arr [])
        process := .ok { triggered := true } }
      [{ premise := ⟨"history", .obj [], .arr [], .arr []⟩, triggered := some false }]).1
      { premise := ⟨"history", .obj [], .arr [], .arr []⟩, triggered := some false } (by decide)
  · exact (c2_cache_lookup_first_amended
      { premise := ⟨"history", .obj [], .arr [], .arr []⟩, itemIsLen := 0
        itemFilter := .ok (true, none, .arr [])
        authorFilter := .ok (true, none, .arr [])
        process := .ok { triggered := true } } []).2 (by decide)

/-! ## C3: naming-conflict semantics of `extractNamedRules` -/

/-- Helper: bind of a successful `Except` computation. -/
theorem ebind_ok {A B : Type} (a : A) (f : A → Except CMErr B) :
    (Except.ok a : Except CMErr A) >>= f = f a := rfl

/-- Helper: bind of a failed `Except` computation. -/
theorem ebind_error {A B : Type} (e : CMErr) (f : A → Except CMErr B) :
    (Except.error e : Except CMErr A) >>= f = .error e := rfl

/-- Helper: one unfolding step of `extractNamedRules`. -/
theorem extractNamedRules_cons (x : RuleEntry) (rest : List RuleEntry)
    (m : List (String × RuleConfigObject)) :
    extractNamedRules (x :: rest) m =
      extractStep x >>= (fun rulesToAdd =>
        rulesToAdd.foldlM addNamedRule m >>= (fun m2 => extractNamedRules rest m2)) := by
  cases x <;> rfl

/-- Helper: a successfully extracted prefix composes with the remaining
entries. -/
theorem extractNamedRules_append_ok (xs ys : List RuleEntry)
    (m0 m : List (String × RuleConfigObject))
    (h : extractNamedRules xs m0 = .ok m) :
    extractNamedRules (xs ++ ys) m0 = extractNamedRules ys m := by
  induction xs generalizing m0 with
  | nil =>
    simp only [extractNamedRules, Except.ok.injEq] at h
    rw [List.nil_append, h]
  | cons x rest ih =>
    rw [List.cons_append, extractNamedRules_cons]
    rw [extractNamedRules_cons] at h
    rcases hs : extractStep x with e | rulesToAdd
    · rw [hs, ebind_error] at h
      exact absurd h (by simp)
    · rw [hs, ebind_ok] at h
      rw [ebind_ok]
      rcases hf : rulesToAdd.foldlM addNamedRule m0 with e | m1
      · rw [hf, ebind_error] at h
        exact absurd h (by simp)
      · rw [hf, ebind_ok] at h
        rw [ebind_ok]
        exact ih m1 h

/-- C3 (confirmed): after any successful sequence of rule registrations
producing map `m`, registering a further named rule whose normalized
(lower-cased) name is already a key of `m` succeeds silently — leaving the
registry unchanged — when the new rule minus its name is deep-structurally
equal to the stored rule minus its name, and raises the naming-conflict
error identifying the conflicting name when they differ. -/
theorem c3_named_rule_conflict (pre : List RuleEntry) (m : List (String × RuleConfigObject))
    (hpre : extractNamedRules pre [] = .ok m)
    (r existing : RuleConfigObject) (name : String) (hname : r.name = some name)
    (hlook : m.lookup (normalizeName name) = some existing) :
    (existing.noName = r.noName → extractNamedRules (pre ++ [.rule r]) [] = .ok m) ∧
    (existing.noName ≠ r.noName →
      extractNamedRules (pre ++ [.rule r]) [] =
        .error (.err ("Rule names must be unique (case-insensitive). Conflicting name: " ++ name))) := by
  rw [extractNamedRules_append_ok pre [.rule r] [] m hpre, extractNamedRules_cons]
  have hstep : extractStep (.rule r) = .ok [r] := by
    simp only [extractStep, hname, Option.isSome_some, if_true]
    rfl
  rw [hstep, ebind_ok]
  constructor
  · intro heq
    simp [List.foldlM, addNamedRule, hname, hlook, heq, extractNamedRules, ebind_ok]
  · intro hne
    simp [List.foldlM, addNamedRule, hname, hlook, hne, extractNamedRules, ebind_error]

/-- C3 (witness): registering `"A"` twice with identical configs succeeds
silently; registering `"a"` (case-insensitively equal) with a differing
config raises the conflict error naming it. -/
theorem c3_named_rule_conflict_witness :
    (extractNamedRules ([.rule { name := some "A", kind := "regex", config := .obj [("regex", .str "x")] }] ++
        [.rule { name := some "A", kind := "regex", config := .obj [("regex", .str "x")] }]) [] =
      .ok [("a", { name := some "A", kind := "regex", config := .obj [("regex", .str "x")] })]) ∧
    (extractNamedRules ([.rule { name := some "A", kind := "regex", config := .obj [("regex", .str "x")] }] ++
        [.rule { name := some "a", kind := "regex", config := .obj [("regex", .str "y")] }]) [] =
      .error (.err ("Rule names must be unique (case-insensitive). Conflicting name: " ++ "a"))) := by
  constructor
  · exact (c3_named_rule_conflict
      [.rule { name := some "A", kind := "regex", config := .obj [("regex", .str "x")] }]
      [("a", { name := some "A", kind := "regex", config := .obj [("regex", .str "x")] })]
      (by decide)
      { name := some "A", kind := "regex", config := .obj [("regex", .str "x")] }
      { name := some "A", kind := "regex", config := .obj [("regex", .str "x")] }
      "A" rfl (by decide)).1 (by decide)
  · exact (c3_named_rule_conflict
      [.rule { name := some "A", kind := "regex", config := .obj [("regex", .str "x")] }]
      [("a", { name := some "A", kind := "regex", config := .obj [("regex", .str "x")] })]
      (by decide)
      { name := some "a", kind := "regex", config := .obj [("regex", .str "y")] }
      { name := some "A", kind := "regex", config := .obj [("regex", .str "x")] }
      "a" rfl (by decide)).2 (by decide)

/-! ## C4: named filter criteria extraction -/

/-- C4 (code bug): a document whose `filterCriteriaDefaults` contains one
named author criteria and which has a single run does NOT extract
successfully: the run loop re-parses the document-level defaults
(`filterCriteriaDefaults` instead of the destructured-but-unused
`filterCriteriaDefaultsFromRun`, ConfigBuilder.ts 596-603), and
`addToNamedFilter` raises on any repeated key without the structural-equality
escape that named rules get — so the structurally identical re-registration
throws the duplicate-name error. -/
theorem c4_filter_defaults_duplicate_registration_bug :
    extractNamedFilters
      { filterCriteriaDefaults := some
          { authorIs := some (.minimal [.named { name := some "X", criteria := .obj [("name", .str "u")] }]) }
        runs := [ { checks := [] } ] } [] [] =
      .error (.err "names for authorIs filters must be unique (case-insensitive). Conflicting name X") := by
  decide

/-! ## C5: string filter reference resolution -/

/-- C5 (code bug): `getNamedOrReturn` checks presence with the lower-cased
reference but then reads the map with the reference as written
(ConfigBuilder.ts 640-643). A registered criteria stored under its
lower-cased name `"myfilter"` therefore resolves to JS `undefined` (`none`)
when referenced as `"MyFilter"`, while the all-lower-case reference resolves
to the criteria; an unregistered reference still raises the error naming
it. -/
theorem c5_mixed_case_reference_resolution_bug :
    (insertNameFilters
        [("myfilter", { name := some "MyFilter", criteria := .obj [("verified", .bool true)] })] []
        { authorIs := some (.minimal [.strRef "MyFilter"]) } =
      .ok { authorIs := some (.minimal [none]), itemIs := none }) ∧
    (insertNameFilters
        [("myfilter", { name := some "MyFilter", criteria := .obj [("verified", .bool true)] })] []
        { authorIs := some (.minimal [.strRef "myfilter"]) } =
      .ok { authorIs := some (.minimal
        [some { name := some "MyFilter", criteria := .obj [("verified", .bool true)] }]), itemIs := none }) ∧
    (insertNameFilters [] [] { authorIs := some (.minimal [.strRef "ghost"]) } =
      .error (.err "No named authorIs criteria with the name \x22ghost\x22")) := by
  refine ⟨by decide, by decide, by decide⟩

/-! ## C6: validator invocation in fragment resolution -/

/-- C6 (counterexample): resolving a literal object fragment with a validator
supplied returns the literal as a singleton with an EMPTY list of validator
invocations — the validator is not invoked at all for non-fetched literals,
in particular never with the fetched flag `false`. -/
theorem c6_literal_validator_counterexample :
    hydrateConfigFragment (.obj [("kind", .str "recentActivity")])
      (fun _ => .error (.err "no fetch available"))
      (some (fun _ _ => .ok true)) =
      .ok ([.obj [("kind", .str "recentActivity")]], []) := by decide

/-- C6 (amended): a literal (non-string, non-include-descriptor) object or
array is returned unchanged — as-is for an array, as a singleton list
otherwise — with no validator invocation and no fetch, for every fetch
oracle and every (optional) validator; the validator is invoked only on the
remote-fetch path. -/
theorem c6_literal_passthrough_amended (val : JVal) (fetch : String → Except CMErr JVal)
    (validateFunc : Option ValidateFunc)
    (hstr : val.isStr = false) (hinc : asIncludesData val = none) :
    hydrateConfigFragment val fetch validateFunc =
      .ok (match val with | .arr xs => xs | v => [v], []) := by
  cases val
  case str s => simp [JVal.isStr] at hstr
  all_goals first
    | rfl
    | (simp_all [hydrateConfigFragment, ebind_ok]
       try rfl)

/-- C6 (witness): the amended statement instantiated at a literal one-element
array with a concrete fetch oracle and validator. -/
theorem c6_literal_passthrough_amended_witness :
    hydrateConfigFragment (.arr [.obj [("kind", .str "history")]])
      (fun _ => .ok (.obj [])) (some (fun _ _ => .ok true)) =
      .ok ([.obj [("kind", .str "history")]], []) :=
  c6_literal_passthrough_amended (.arr [.obj [("kind", .str "history")]])
    (fun _ => .ok (.obj [])) (some (fun _ _ => .ok true)) (by decide) (by decide)


/-! ## C7: top-level document shape -/

/-- C7 (confirmed): a document with non-empty top-level `runs` and `checks`
fails with the document-shape error for every fetch and schema oracle — in
particular before any run is processed; a document with only a non-empty
top-level `checks` list is hydrated exactly as the singleton run list
containing the synthetic run `{name: "Run1", checks}`. -/
theorem c7_runs_checks_shape (env : HydrateEnv) (config : JVal) :
    (JVal.asArr (config.get "runs") ≠ [] → JVal.asArr (config.get "checks") ≠ [] →
      hydrateConfig env config =
        .error (.err "Subreddit configuration cannot contain both \x27checks\x27 and \x27runs\x27 at top-level.")) ∧
    (JVal.asArr (config.get "runs") = [] → JVal.asArr (config.get "checks") ≠ [] →
      (mkRun1 (JVal.asArr (config.get "checks"))).get "name" = some (.str "Run1") ∧
      (mkRun1 (JVal.asArr (config.get "checks"))).get "checks" =
        some (.arr (JVal.asArr (config.get "checks"))) ∧
      hydrateConfig env config =
        hydrateRunList env [mkRun1 (JVal.asArr (config.get "checks"))] 1 >>=
          (fun hydratedRuns =>
            validateJson env.appSchema
              ((config.removeKeys ["runs", "checks"]).setKey "runs" (.arr hydratedRuns)))) := by
  constructor
  · intro hr hc
    simp [hydrateConfig, List.length_pos, hc, hr]
  · intro hr hc
    refine ⟨rfl, rfl, ?_⟩
    simp only [hydrateConfig, hr]
    simp [List.length_pos, hc]

/-- C7 (witness): the shape theorem instantiated at a concrete document with
both lists and at a concrete checks-only document. -/
theorem c7_runs_checks_shape_witness :
    (hydrateConfig ⟨fun _ => .error (.err "offline"), fun _ => true, fun _ => true, fun _ => true⟩
        (.obj [("runs", .arr [.obj [("name", .str "r1")]]),
               ("checks", .arr [.obj [("name", .str "c1")]])]) =
      .error (.err "Subreddit configuration cannot contain both \x27checks\x27 and \x27runs\x27 at top-level.")) ∧
    (hydrateConfig ⟨fun _ => .error (.err "offline"), fun _ => true, fun _ => true, fun _ => true⟩
        (.obj [("checks", .arr [.obj [("name", .str "c1")]])]) =
      hydrateRunList ⟨fun _ => .error (.err "offline"), fun _ => true, fun _ => true, fun _ => true⟩
          [mkRun1 [.obj [("name", .str "c1")]]] 1 >>=
        (fun hydratedRuns =>
          validateJson (fun _ => true)
            (((JVal.obj [("checks", .arr [.obj [("name", .str "c1")]])]).removeKeys
                ["runs", "checks"]).setKey "runs" (.arr hydratedRuns)))) := by
  constructor
  · exact (c7_runs_checks_shape
      ⟨fun _ => .error (.err "offline"), fun _ => true, fun _ => true, fun _ => true⟩
      (.obj [("runs", .arr [.obj [("name", .str "r1")]]),
             ("checks", .arr [.obj [("name", .str "c1")]])])).1 (by decide) (by decide)
  · exact ((c7_runs_checks_shape
      ⟨fun _ => .error (.err "offline"), fun _ => true, fun _ => true, fun _ => true⟩
      (.obj [("checks", .arr [.obj [("name", .str "c1")]])])).2 (by decide) (by decide)).2.2

/-! ## C8: author activities cache key -/

/-- C8 (code bug): `getAuthorActivities` assembles `hashObj` with the
subreddit name for per-subreddit author caches but then hashes
`{...options, userName}` instead (SubredditResources.ts 71-75). Two
per-subreddit-cache instances for different subreddits therefore share the
same cache key: the second instance gets the first instance's items from the
shared store without fetching live, even though the two `hashObj` values
differ. Disabled caching still fetches live and leaves the store
untouched. -/
theorem c8_author_cache_key_bug :
    (SubredditResources.getAuthorActivities ⟨true, 10000, true, "subA"⟩ "alice"
        (.obj [("type", .str "comment")]) [.str "a1"] [] =
      ([.str "a1"],
        [(JVal.obj [("type", .str "comment"), ("userName", .str "alice")], [.str "a1"])], true)) ∧
    (SubredditResources.getAuthorActivities ⟨true, 10000, true, "subB"⟩ "alice"
        (.obj [("type", .str "comment")]) [.str "b1"]
        [(JVal.obj [("type", .str "comment"), ("userName", .str "alice")], [.str "a1"])] =
      ([.str "a1"],
        [(JVal.obj [("type", .str "comment"), ("userName", .str "alice")], [.str "a1"])], false)) ∧
    authorActivitiesHashObj ⟨true, 10000, true, "subA"⟩ "alice" (.obj [("type", .str "comment")]) ≠
      authorActivitiesHashObj ⟨true, 10000, true, "subB"⟩ "alice" (.obj [("type", .str "comment")]) ∧
    (SubredditResources.getAuthorActivities ⟨false, 10000, false, "subC"⟩ "alice"
        (.obj [("type", .str "comment")]) [.str "c1"]
        [(JVal.obj [("type", .str "comment"), ("userName", .str "alice")], [.str "a1"])] =
      ([.str "c1"],
        [(JVal.obj [("type", .str "comment"), ("userName", .str "alice")], [.str "a1"])], true)) := by
  refine ⟨by decide, by decide, by decide, by decide⟩

/-! ## C9: positional context of rule fragment failures -/

/-- C9 (counterexample): a fetch failure of the first rule fragment of the
first check of the first run aborts the whole hydration with the error
`Rule Config Fragment #1 in Check #1 could not be fetched` — the message
carries the Rule and Check numbers but no Run number at all
(ConfigBuilder.ts 300 interpolates only `ruleIndex` and `checkIndex`). -/
theorem c9_rule_error_no_run_counterexample :
    hydrateConfig ⟨fun _ => .error (.err "network down"), fun _ => true, fun _ => true, fun _ => true⟩
      (.obj [("runs", .arr [.obj [("name", .str "run1"),
        ("checks", .arr [.obj [("name", .str "check1"), ("rules", .arr [.str "url:bad"])]])]])]) =
      .error (.cm "Rule Config Fragment #1 in Check #1 could not be fetched" (.err "network down")) ∧
    hasSubChars ("Rule Config Fragment #1 in Check #1 could not be fetched").data ("Run".data) = false := by
  refine ⟨by decide, by decide⟩

/-- C9 (amended): a fetch or parse failure while hydrating a rule fragment
propagates with the 1-based Rule number and the 1-based Check number — but
not the Run number — and the remaining rules of the check are never
processed (the whole hydration aborts with this error). -/
theorem c9_rule_fragment_context_amended (env : HydrateEnv) (checkIndex ruleIndex : Nat)
    (r : JVal) (rest : List JVal) (e : CMErr)
    (hfrag : hydrateConfigFragment r env.fetch none = .error e) :
    hydrateRuleList env checkIndex (r :: rest) ruleIndex =
      .error (.cm ("Rule Config Fragment #" ++ toString ruleIndex ++ " in Check #" ++
        toString checkIndex ++ " could not be fetched") e) := by
  unfold hydrateRuleList
  rw [hfrag]

/-- C9 (witness): the amended statement instantiated at Rule #2 of Check #3
with a concrete failing fetch. -/
theorem c9_rule_fragment_context_amended_witness :
    hydrateRuleList ⟨fun _ => .error (.err "http 404"), fun _ => true, fun _ => true, fun _ => true⟩
      3 [.str "wiki:missing", .obj [("kind", .str "regex")]] 2 =
      .error (.cm ("Rule Config Fragment #" ++ toString 2 ++ " in Check #" ++
        toString 3 ++ " could not be fetched") (.err "http 404")) :=
  c9_rule_fragment_context_amended
    ⟨fun _ => .error (.err "http 404"), fun _ => true, fun _ => true, fun _ => true⟩
    3 2 (.str "wiki:missing") [.obj [("kind", .str "regex")]] (.err "http 404") (by decide)

/-! ## C10: ActionPremise author filter storage -/

/-- C10 (confirmed): when the premise's `authorIs` has a non-empty `include`
list, the stored `authorIsConfig` holds only that include list — the exclude
entries and the `excludeCondition` are dropped — so two premises sharing the
include list but differing in exclude list (and exclude condition) get equal
`authorIsConfigHash`. -/
theorem c10_actionpremise_include_only (k pk : String) (cfg : JVal) (ii : Option (List JVal))
    (inc : List JVal) (hinc : inc ≠ [])
    (e1 e2 : Option (List JVal)) (c1 c2 : Option String)
    (a1 a2 : Option Bool) (n1 n2 : Option String) :
    (ActionPremise.ofOptions
        { kind := k
          config := { kind := pk
                      config := cfg
                      authorIs := some { incl := some inc, excl := e1, excludeCondition := c1 }
                      itemIs := ii }
          active := a1
          name := n1 }).authorIsConfig =
      some { incl := some inc, excl := none, excludeCondition := none } ∧
    (ActionPremise.ofOptions
        { kind := k
          config := { kind := pk
                      config := cfg
                      authorIs := some { incl := some inc, excl := e1, excludeCondition := c1 }
                      itemIs := ii }
          active := a1
          name := n1 }).authorIsConfigHash =
      (ActionPremise.ofOptions
        { kind := k
          config := { kind := pk
                      config := cfg
                      authorIs := some { incl := some inc, excl := e2, excludeCondition := c2 }
                      itemIs := ii }
          active := a2
          name := n2 }).authorIsConfigHash := by
  have h : 0 < inc.length := List.length_pos.mpr hinc
  constructor <;> simp [ActionPremise.ofOptions, h]

/-- C10 (witness): two concrete comment-action premises with the same
include list and different exclude lists store the same author config and
hash. -/
theorem c10_actionpremise_include_only_witness :
    (ActionPremise.ofOptions
        { kind := "comment"
          config := { kind := "comment"
                      config := .obj [("content", .str "hi")]
                      authorIs := some { incl := some [.obj [("verified", .bool true)]]
                                         excl := some [.obj [("name", .str "mods")]]
                                         excludeCondition := some "OR" }
                      itemIs := some [] }
          active := some true
          name := some "act1" }).authorIsConfig =
      some { incl := some [.obj [("verified", .bool true)]], excl := none, excludeCondition := none } ∧
    (ActionPremise.ofOptions
        { kind := "comment"
          config := { kind := "comment"
                      config := .obj [("content", .str "hi")]
                      authorIs := some { incl := some [.obj [("verified", .bool true)]]
                                         excl := some [.obj [("name", .str "mods")]]
                                         excludeCondition := some "OR" }
                      itemIs := some [] }
          active := some true
          name := some "act1" }).authorIsConfigHash =
      (ActionPremise.ofOptions
        { kind := "comment"
          config := { kind := "comment"
                      config := .obj [("content", .str "hi")]
                      authorIs := some { incl := some [.obj [("verified", .bool true)]]
                                         excl := none
                                         excludeCondition := none }
                      itemIs := some [] }
          active := some false
          name := some "act2" }).authorIsConfigHash :=
  c10_actionpremise_include_only "comment" "comment" (.obj [("content", .str "hi")]) (some [])
    [.obj [("verified", .bool true)]] (by decide)
    (some [.obj [("name", .str "mods")]]) none (some "OR") none
    (some true) (some false) (some "act1") (some "act2")
